import Mathlib

/-!
Verification development for the Polymarket Edge Finder repository.

The repository contains a React frontend (App.jsx, an API client, hooks and
card components) and a FastAPI backend.  The frontend sources are embedded
here directly; the backend engine (models.py, detection.py, research.py)
is not part of the visible sources, so its behaviour is modelled from the
specification where a claim depends on it.

Numbers are modelled as rationals (JavaScript numbers and Python floats in
the exercised range behave like exact rationals on the concrete inputs we
evaluate), strings as `String`, and JSON values as an inductive type.
-/

namespace Polymarket

/-! ## JavaScript / JSON value model

Used by the API-client embedding: query-parameter truthiness tests
(`if (v) params.append(k, v)`) and error-body field access
(`error.detail || fallback`). -/

inductive Json where
  | null
  | bool (b : Bool)
  | num (q : ℚ)
  | str (s : String)
  | obj (fields : List (String × Json))
  | arr (elems : List Json)

/-- JavaScript truthiness of a JSON value: `undefined`/`null`, `false`,
`0` and the empty string are falsy; objects and arrays are always truthy. -/
def jsTruthy : Json → Bool
  | .null => false
  | .bool b => b
  | .num q => decide (q ≠ 0)
  | .str s => decide (s ≠ "")
  | .obj _ => true
  | .arr _ => true

/-- JavaScript string coercion `String(v)` of a JSON value, as performed by
`new Error(error.detail)` when the detail field is not a string. -/
def jsToString : Json → String
  | .null => "null"
  | .bool true => "true"
  | .bool false => "false"
  | .num q => toString q
  | .str s => s
  | .obj _ => "[object Object]"
  | .arr es => String.intercalate "," (es.attach.map (fun e => jsToString e.1))
decreasing_by
  simp_wf
  have h := List.sizeOf_lt_of_mem e.2
  omega

/-- Truthiness of an optional value: an omitted argument is `undefined`,
hence falsy. -/
def truthyOpt : Option Json → Bool
  | some j => jsTruthy j
  | none => false

/-! ## API client: query-parameter construction (src client.js)

Each of `getMarkets`, `getOpportunities`, `getPredictions` builds a
`URLSearchParams` by appending a parameter only when the supplied filter
value is truthy (each filter guarded by an if on its own truthiness).
We model the params object as the list of appended key/value pairs, in
append order, which determines the request URL. -/

/-- One `if (v) params.append(k, v)` step of the client. -/
def addParam (ps : List (String × Json)) (k : String) (v : Option Json) :
    List (String × Json) :=
  match v with
  | some j => if jsTruthy j then ps ++ [(k, j)] else ps
  | none => ps

/-- Embeds the body of `getMarkets({ category, minScore, minVolume, limit, offset })`. -/
def getMarketsParams (category minScore minVolume limit offset : Option Json) :
    List (String × Json) :=
  addParam (addParam (addParam (addParam (addParam [] "category" category)
    "min_score" minScore) "min_volume" minVolume) "limit" limit) "offset" offset

/-- Embeds the body of `getOpportunities({ edgeType, minConfidence, riskLevel, limit })`. -/
def getOpportunitiesParams (edgeType minConfidence riskLevel limit : Option Json) :
    List (String × Json) :=
  addParam (addParam (addParam (addParam [] "edge_type" edgeType)
    "min_confidence" minConfidence) "risk_level" riskLevel) "limit" limit

/-- Embeds the body of `getPredictions({ direction, minEdge, limit })`. -/
def getPredictionsParams (direction minEdge limit : Option Json) :
    List (String × Json) :=
  addParam (addParam (addParam [] "direction" direction) "min_edge" minEdge) "limit" limit

/-- Replacing a falsy argument by an omitted one: both are skipped by
`if (v) params.append(k, v)`. -/
def normalizeArg (v : Option Json) : Option Json :=
  if truthyOpt v then v else none

theorem addParam_normalize (ps : List (String × Json)) (k : String) (v : Option Json) :
    addParam ps k (normalizeArg v) = addParam ps k v := by
  cases v with
  | none => rfl
  | some j =>
    by_cases h : jsTruthy j = true
    · simp [normalizeArg, truthyOpt, addParam, h]
    · simp [normalizeArg, truthyOpt, addParam, h]

theorem addParam_keys (ps : List (String × Json)) (k : String) (v : Option Json) :
    (addParam ps k v).map Prod.fst
      = ps.map Prod.fst ++ (if truthyOpt v = true then [k] else []) := by
  cases v with
  | none => simp [addParam, truthyOpt]
  | some j =>
    by_cases h : jsTruthy j = true
    · simp [addParam, truthyOpt, h]
    · simp [addParam, truthyOpt, h]

/-! ## OpportunityCard: edge-type label table (src OpportunityCard.jsx) -/

/-- The `EDGE_TYPE_LABELS` lookup table of OpportunityCard, verbatim from the
source: keys `arbitrage`, `mispricing`, `correlation`, `volume_signal`,
`liquidity_gap`, each mapped to a display label and a badge color. -/
def EDGE_TYPE_LABELS : List (String × String × String) :=
  [("arbitrage", "Arbitrage", "green"),
   ("mispricing", "Mispricing", "yellow"),
   ("correlation", "Correlation", "blue"),
   ("volume_signal", "Volume Signal", "purple"),
   ("liquidity_gap", "Liquidity Gap", "blue")]

/-- `EDGE_TYPE_LABELS[opportunity.edge_type] || { label: opportunity.edge_type,
color gray`: resolve the type info, falling back to the raw string with
gray color. -/
def edgeTypeInfo (edge_type : String) : String × String :=
  match (EDGE_TYPE_LABELS.find? (fun e => e.1 == edge_type)).map (fun e => e.2) with
  | some info => info
  | none => (edge_type, "gray")

/-- The five edge-type enum values of the specification (§3 EdgeOpportunity)
and of the README edge-detection table. -/
def specEdgeTypes : List String :=
  ["arbitrage", "mispricing", "temporal", "volume_signal", "liquidity_gap"]

/-! ## ScoreBar (src/frontend/src/components/ScoreBar.jsx) -/

/-- `Math.min(100, Math.max(0, (value / max) * 100))` with `max` defaulting
to 100 at the call sites. -/
def scoreBarPercentage (value mx : ℚ) : ℚ :=
  min 100 (max 0 (value / mx * 100))

/-- The color class chain of ScoreBar: `high` when the percentage is at
least 70, else `medium` when at least 40, else `low`. -/
def scoreBarColorClass (value mx : ℚ) : String :=
  let percentage := scoreBarPercentage value mx
  if 70 ≤ percentage then "high"
  else if 40 ≤ percentage then "medium"
  else "low"

/-! ## API client: request (src client.js)

The `request` helper performs the fetch, and on a non-ok response parses the
body (defaulting to `{}` when parsing fails) and throws
`new Error(error.detail || "Request failed: <status>")`; on an ok response
it returns `response.json()`. -/

inductive RequestError where
  | httpError (message : String)
  | jsonParseError
deriving DecidableEq, Repr

/-- An HTTP response as seen by the client: the ok flag, the status code,
and the result of parsing the body as JSON (`none` when the body is not
valid JSON, in which case `response.json()` rejects). -/
structure HttpResponse where
  ok : Bool
  status : ℕ
  body : Option Json

/-- Field access `obj[k]` on a parsed JSON object. -/
def lookupField (fields : List (String × Json)) (k : String) : Option Json :=
  (fields.find? (fun f => f.1 == k)).map (fun f => f.2)

/-- `error.detail`: present only when the parsed body is an object with a
`detail` field. -/
def getDetail : Json → Option Json
  | .obj fields => lookupField fields "detail"
  | _ => none

/-- Embeds `request`: ok responses return the parsed body (rejecting when
the body is not JSON); non-ok responses throw an Error whose message is
`error.detail || "Request failed: <status>"`, where `error` is the parsed
body or `{}` when parsing fails, and `||` picks the detail only when it is
truthy. -/
def request (r : HttpResponse) : Except RequestError Json :=
  if r.ok then
    match r.body with
    | some j => .ok j
    | none => .error .jsonParseError
  else
    let errObj := r.body.getD (.obj [])
    let msg :=
      match getDetail errObj with
      | some d => if jsTruthy d then jsToString d else "Request failed: " ++ toString r.status
      | none => "Request failed: " ++ toString r.status
    .error (.httpError msg)

/-! ## App.jsx: refresh handling

`handleRefresh` sets the `refreshing` flag, triggers the refresh, then
polls `getStatus` on an interval; when a poll reports `is_loading === false`
it clears the interval, clears the `refreshing` flag and calls `fetchData`
once.  Both header buttons carry `disabled={loading || refreshing}`.  We
model one run of the handler over the sequence of `is_loading` values the
successive polls observe. -/

/-- The `disabled={loading || refreshing}` prop shared by the Load Demo and
Refresh Data buttons. -/
def buttonsDisabled (loading refreshing : Bool) : Bool := loading || refreshing

/-- Observable outcome of one `handleRefresh` run: how many status polls
were issued, how many times `fetchData` was called, and the final value of
the `refreshing` flag. -/
structure RefreshOutcome where
  statusPolls : ℕ
  fetchDataCalls : ℕ
  refreshing : Bool
deriving DecidableEq, Repr

/-- The polling loop of `handleRefresh` over the successive `is_loading`
values returned by `getStatus`: keep polling while `is_loading` is true; at
the first false, stop the interval, clear `refreshing` and fetch once.  An
exhausted list means the refresh never completed: the interval is still
live, nothing fetched, `refreshing` still set. -/
def pollStatuses : List Bool → RefreshOutcome
  | [] => { statusPolls := 0, fetchDataCalls := 0, refreshing := true }
  | is_loading :: rest =>
    if is_loading then
      let r := pollStatuses rest
      { r with statusPolls := r.statusPolls + 1 }
    else
      { statusPolls := 1, fetchDataCalls := 1, refreshing := false }

/-- One run of `handleRefresh` (after `setRefreshing(true)` and the refresh
trigger succeed), driven by the polled `is_loading` values. -/
def handleRefresh (statuses : List Bool) : RefreshOutcome :=
  pollStatuses statuses

/-! ## Backend data model

Modelled from the spec: the backend core (`backend/core/models.py`,
`detection.py`, `research.py`, `main.py`) is not among the visible sources;
only the README and the spec describe it.  The definitions below follow
§3/§4 of the spec. -/

/-- Modelled from the spec: the market category enum of §3. -/
inductive MarketCategory where
  | politics | sports | crypto | economics | entertainment | science | other
deriving DecidableEq, Repr

/-- Modelled from the spec: one Market snapshot (§3), with the fields the
claims exercise.  `yes_price` is the current price of the yes side; the
implied `no_price` may be supplied independently and need not equal
`1 - yes_price`. -/
structure Market where
  market_id : String
  question : String
  category : MarketCategory
  yes_price : ℚ
  no_price : ℚ
  volume_24h : ℚ
  liquidity : ℚ
  spread_pct : ℚ
  days_until_resolution : Option ℤ
  edge_score : ℚ
deriving DecidableEq, Repr

/-- Modelled from the spec: prediction direction enum (§3). -/
inductive Direction where
  | buy_yes | buy_no | hold
deriving DecidableEq, Repr

/-- Modelled from the spec: opportunity risk level enum (§3). -/
inductive RiskLevel where
  | low | medium | high
deriving DecidableEq, Repr

/-- Modelled from the spec: the edge-type enum of §3. -/
inductive EdgeType where
  | arbitrage | mispricing | temporal | volume_signal | liquidity_gap
deriving DecidableEq, Repr

/-- Modelled from the spec: one EdgeOpportunity record (§3).  Confidence is
kept as a rational in [0,100]. -/
structure EdgeOpportunity where
  id : String
  market_id : String
  market_question : String
  edge_type : EdgeType
  description : String
  confidence : ℚ
  expected_return : ℚ
  risk_level : RiskLevel
  suggested_action : String
  reasoning : String
deriving DecidableEq, Repr

/-- Modelled from the spec: one Prediction record (§3). -/
structure Prediction where
  market_id : String
  market_question : String
  agent_name : String
  direction : Direction
  strength : String
  current_price : ℚ
  predicted_probability : ℚ
  confidence : ℚ
  confidence_low : ℚ
  confidence_high : ℚ
  edge : ℚ
  reasoning : String
  key_risks : List String
  catalysts : List String
deriving DecidableEq, Repr

/-! ## Arbitrage detector (backend detection.py, modelled from the spec) -/

/-- Modelled from the spec: the small tolerance around 1.00 for the sum of
the yes and no prices (§4.2 gives ±0.02 as the example value). -/
def ARBITRAGE_TOLERANCE : ℚ := 2 / 100

/-- Modelled from the spec: arbitrage confidence scales with the deviation
magnitude (§4.2); an affine map keeping it within [0,100] for deviations in
[0,1] while strictly increasing in the deviation. -/
def arbConfidence (deviation : ℚ) : ℚ := 50 + 50 * deviation

/-- Modelled from the spec: the arbitrage detector (§4.2, backend
`detection.py`, absent from the visible sources).  For each market whose
yes+no price sum deviates from 1.00 beyond the tolerance it emits exactly
one opportunity: confidence scaling with the deviation, risk always low,
expected return computed directly from the deviation. -/
def detect_arbitrage (markets : List Market) : List EdgeOpportunity :=
  markets.filterMap fun m =>
    let deviation := |m.yes_price + m.no_price - 1|
    if ARBITRAGE_TOLERANCE < deviation then
      some
        { id := m.market_id ++ ":arbitrage"
          market_id := m.market_id
          market_question := m.question
          edge_type := EdgeType.arbitrage
          description := "YES + NO prices deviate from 1.00"
          confidence := arbConfidence deviation
          expected_return := deviation * 100
          risk_level := RiskLevel.low
          suggested_action := "Trade the structural mispricing"
          reasoning := "Complementary outcome prices must sum to 1.00" }
    else none

/-! ## Research agents and orchestrator (backend research.py, modelled
from the spec) -/

/-- Modelled from the spec: the deadband below which an edge is treated as
noise and the direction is hold (§3 calls it a configurable threshold). -/
def DEADBAND : ℚ := 5 / 100

/-- Modelled from the spec: the §3 direction rule — edge above the deadband
means buy yes, below its negation means buy no, otherwise hold. -/
def directionFor (edge deadband : ℚ) : Direction :=
  if deadband < edge then Direction.buy_yes
  else if edge < -deadband then Direction.buy_no
  else Direction.hold

/-- Modelled from the spec: how an agent assembles a Prediction from its
probability estimate (§4.3): the market id and question are echoed, the
edge is `predicted - current_price`, and the direction follows the
edge-vs-deadband rule. -/
def mkPrediction (agent : String) (m : Market) (predicted confidence low high : ℚ)
    (strength reasoning : String) : Prediction :=
  { market_id := m.market_id
    market_question := m.question
    agent_name := agent
    direction := directionFor (predicted - m.yes_price) DEADBAND
    strength := strength
    current_price := m.yes_price
    predicted_probability := predicted
    confidence := confidence
    confidence_low := low
    confidence_high := high
    edge := predicted - m.yes_price
    reasoning := reasoning
    key_risks := []
    catalysts := [] }

/-- Modelled from the spec: a research agent is a named pair of a
capability test and an analysis function (§4.3, §9: a strategy registry of
predicate/analyze pairs). -/
structure ResearchAgent where
  name : String
  can_analyze : Market → Bool
  analyze : Market → Prediction

/-- The §4.3 contract the `analyze` of every concrete agent must satisfy: the
prediction is for the analyzed market, the confidence interval brackets the
predicted probability, and confidence lies in [0,100]. -/
def PredictionWellFormed (m : Market) (p : Prediction) : Prop :=
  p.market_id = m.market_id ∧
  p.confidence_low ≤ p.predicted_probability ∧
  p.predicted_probability ≤ p.confidence_high ∧
  0 ≤ p.confidence ∧ p.confidence ≤ 100

/-- An agent meeting the §4.3 `analyze` contract on every market. -/
def AgentMeetsContract (a : ResearchAgent) : Prop :=
  ∀ m : Market, PredictionWellFormed m (a.analyze m)

/-- Modelled from the spec: agent selection (§4.3) — the first agent of the
ordered registry whose `can_analyze` accepts the market, falling back to
the default agent when none does. -/
def selectAgent (registry : List ResearchAgent) (fallback : ResearchAgent)
    (m : Market) : ResearchAgent :=
  (registry.find? (fun a => a.can_analyze m)).getD fallback

/-- Modelled from the spec: the Agent Orchestrator (§4.3, backend
`research.py`, absent from the visible sources) — one prediction per market
of the batch, produced by the selected agent. -/
def orchestrate (registry : List ResearchAgent) (fallback : ResearchAgent)
    (batch : List Market) : List Prediction :=
  batch.map fun m => (selectAgent registry fallback m).analyze m

/-! ## Edge scorer (backend, modelled from the spec §4.1) -/

/-- Modelled from the spec: the validation error raised at the scoring
boundary for malformed Market fields (§7). -/
inductive ValidationError where
  | price_out_of_range
  | negative_volume
  | negative_liquidity
  | negative_spread
deriving DecidableEq, Repr

/-- Modelled from the spec: volume sub-signal, normalized to [0,1] (volume
relative to a reference level, capped). -/
def volumeSignal (m : Market) : ℚ := min 1 (m.volume_24h / 10000)

/-- Modelled from the spec: spread-width sub-signal, normalized to [0,1]
(wider spread scores higher, §4.1). -/
def spreadSignal (m : Market) : ℚ := min 1 (m.spread_pct / 10)

/-- Modelled from the spec: time-to-resolution sub-signal — near-term
resolution with a price away from the 0/1 extremes scores higher (§4.1);
0 when the resolution date is unknown or far. -/
def timeSignal (m : Market) : ℚ :=
  match m.days_until_resolution with
  | some d => if d ≤ 30 then 1 - |m.yes_price - 1/2| * 2 else 0
  | none => 0

/-- Modelled from the spec: distance of the price from the neutral
midpoint, normalized to [0,1] (§4.1). -/
def midpointSignal (m : Market) : ℚ := |m.yes_price - 1/2| * 2

/-- Modelled from the spec: the fixed weights of the scorer sub-signals;
they sum to 100, and the final score clamps at 100 (§4.1). -/
def rawScore (m : Market) : ℚ :=
  30 * volumeSignal m + 25 * spreadSignal m + 25 * timeSignal m + 20 * midpointSignal m

/-- Modelled from the spec: the Edge Scorer (§4.1, backend core, absent
from the visible sources) — validates the market fields (price fields in
[0,1], non-negative volume/liquidity/spread; ValidationError otherwise)
and returns the clamped weighted combination of the sub-signals. -/
def scoreMarket (m : Market) : Except ValidationError ℚ :=
  if ¬(0 ≤ m.yes_price ∧ m.yes_price ≤ 1 ∧ 0 ≤ m.no_price ∧ m.no_price ≤ 1) then
    .error .price_out_of_range
  else if m.volume_24h < 0 then .error .negative_volume
  else if m.liquidity < 0 then .error .negative_liquidity
  else if m.spread_pct < 0 then .error .negative_spread
  else .ok (min 100 (rawScore m))

/-! ## Market listing (backend `/api/markets` handler, modelled from the
spec §6; the visible client `getMarkets` supplies exactly the filters
`category`, `min_score`, `min_volume` and `limit`/`offset`) -/

/-- Modelled from the spec: the AND-combination of the market filters;
omitted filters pass all records and the `min_*` filters are inclusive
lower bounds (§6). -/
def passesMarketFilters (category : Option MarketCategory)
    (min_score min_volume : Option ℚ) (m : Market) : Bool :=
  (match category with
   | some c => decide (m.category = c)
   | none => true)
  && (match min_score with
      | some s => decide (s ≤ m.edge_score)
      | none => true)
  && (match min_volume with
      | some v => decide (v ≤ m.volume_24h)
      | none => true)

/-- Modelled from the spec: the market-listing query (§6) — filter the
current collection in order, then apply offset and limit. -/
def listMarkets (markets : List Market) (category : Option MarketCategory)
    (min_score min_volume : Option ℚ) (limit offset : ℕ) : List Market :=
  (((markets.filter (passesMarketFilters category min_score min_volume)).drop offset).take limit)

/-! ## Theorems -/

/-- C10: for every numeric value and positive max, the ScoreBar fill width
percentage equals min(100, max(0, (value/max)*100)), hence always lies in
[0,100] even when the score is outside [0,max]; the color class is high
exactly when the percentage is at least 70, medium exactly when it is in
[40,70), and low otherwise. -/
theorem scoreBar_percentage_and_colors (value mx : ℚ) (_hmx : 0 < mx) :
    scoreBarPercentage value mx = min 100 (max 0 (value / mx * 100)) ∧
    0 ≤ scoreBarPercentage value mx ∧ scoreBarPercentage value mx ≤ 100 ∧
    (scoreBarColorClass value mx = "high" ↔ 70 ≤ scoreBarPercentage value mx) ∧
    (scoreBarColorClass value mx = "medium" ↔
      40 ≤ scoreBarPercentage value mx ∧ scoreBarPercentage value mx < 70) ∧
    (scoreBarColorClass value mx = "low" ↔ scoreBarPercentage value mx < 40) := by
  have hcc : scoreBarColorClass value mx =
      (if 70 ≤ scoreBarPercentage value mx then "high"
       else if 40 ≤ scoreBarPercentage value mx then "medium" else "low") := rfl
  refine ⟨rfl, le_min (by norm_num) (le_max_left 0 _), min_le_left _ _, ?_, ?_, ?_⟩
  · rw [hcc]
    by_cases h1 : (70:ℚ) ≤ scoreBarPercentage value mx
    · simp [h1]
    · by_cases h2 : (40:ℚ) ≤ scoreBarPercentage value mx
      · simp [h1, h2]
      · simp [h1, h2]
  · rw [hcc]
    by_cases h1 : (70:ℚ) ≤ scoreBarPercentage value mx
    · simp [h1]
    · by_cases h2 : (40:ℚ) ≤ scoreBarPercentage value mx
      · simp [h1, h2]
        linarith
      · simp [h1, h2]
  · rw [hcc]
    by_cases h1 : (70:ℚ) ≤ scoreBarPercentage value mx
    · simp [h1]
      linarith
    · by_cases h2 : (40:ℚ) ≤ scoreBarPercentage value mx
      · simp [h1, h2]
      · simp [h1, h2]
        linarith [lt_of_not_le h2]

/-- C10 witness: the theorem applied at value 50, max 100: percentage is
50, color class is medium. -/
theorem scoreBar_percentage_and_colors_witness :
    (0:ℚ) < 100 ∧ (scoreBarColorClass 50 100 = "medium" ↔
      40 ≤ scoreBarPercentage 50 100 ∧ scoreBarPercentage 50 100 < 70) :=
  ⟨by norm_num, (scoreBar_percentage_and_colors 50 100 (by norm_num)).2.2.2.2.1⟩

/-- C8: the edge-type enum of the spec contains temporal, but the OpportunityCard
EDGE_TYPE_LABELS table has no temporal entry (it has a correlation entry
instead), so a temporal opportunity falls back to the gray raw-string
default — against the claim that all five enum values resolve to a
dedicated label and color. -/
theorem temporal_edge_type_falls_back_to_gray :
    "temporal" ∈ specEdgeTypes ∧
    EDGE_TYPE_LABELS.find? (fun e => e.1 == "temporal") = none ∧
    edgeTypeInfo "temporal" = ("temporal", "gray") ∧
    edgeTypeInfo "arbitrage" = ("Arbitrage", "green") ∧
    edgeTypeInfo "mispricing" = ("Mispricing", "yellow") ∧
    edgeTypeInfo "volume_signal" = ("Volume Signal", "purple") ∧
    edgeTypeInfo "liquidity_gap" = ("Liquidity Gap", "blue") := by
  refine ⟨?_, rfl, rfl, rfl, rfl, rfl, rfl⟩
  simp [specEdgeTypes]

/-- C9: in getMarkets, getOpportunities and getPredictions a query
parameter is appended iff the corresponding filter value is truthy (the
appended key list is exactly the truthy keys, in source order), and a falsy
value (0, empty string, or any value truthiness-normalized away) yields
exactly the same params — hence the same request URL — as omitting the
filter; in particular min_score=0, min_confidence=0 and limit=0 equal the
omitted-filter request. -/
theorem client_params_truthy_iff :
    (∀ c s v l o, getMarketsParams (normalizeArg c) (normalizeArg s) (normalizeArg v)
        (normalizeArg l) (normalizeArg o) = getMarketsParams c s v l o) ∧
    (∀ e mc r l, getOpportunitiesParams (normalizeArg e) (normalizeArg mc)
        (normalizeArg r) (normalizeArg l) = getOpportunitiesParams e mc r l) ∧
    (∀ d me l, getPredictionsParams (normalizeArg d) (normalizeArg me) (normalizeArg l)
        = getPredictionsParams d me l) ∧
    (∀ c s v l o, (getMarketsParams c s v l o).map Prod.fst =
      (if truthyOpt c = true then ["category"] else [])
      ++ (if truthyOpt s = true then ["min_score"] else [])
      ++ (if truthyOpt v = true then ["min_volume"] else [])
      ++ (if truthyOpt l = true then ["limit"] else [])
      ++ (if truthyOpt o = true then ["offset"] else [])) ∧
    (∀ e mc r l, (getOpportunitiesParams e mc r l).map Prod.fst =
      (if truthyOpt e = true then ["edge_type"] else [])
      ++ (if truthyOpt mc = true then ["min_confidence"] else [])
      ++ (if truthyOpt r = true then ["risk_level"] else [])
      ++ (if truthyOpt l = true then ["limit"] else [])) ∧
    (∀ d me l, (getPredictionsParams d me l).map Prod.fst =
      (if truthyOpt d = true then ["direction"] else [])
      ++ (if truthyOpt me = true then ["min_edge"] else [])
      ++ (if truthyOpt l = true then ["limit"] else [])) ∧
    (∀ c v l o, getMarketsParams c (some (Json.num 0)) v l o
        = getMarketsParams c none v l o) ∧
    (∀ e r l, getOpportunitiesParams e (some (Json.num 0)) r l
        = getOpportunitiesParams e none r l) ∧
    (∀ c s v o, getMarketsParams c s v (some (Json.str "")) o
        = getMarketsParams c s v none o) := by
  refine ⟨?_, ?_, ?_, ?_, ?_, ?_, ?_, ?_, ?_⟩
  · intro c s v l o
    simp only [getMarketsParams, addParam_normalize]
  · intro e mc r l
    simp only [getOpportunitiesParams, addParam_normalize]
  · intro d me l
    simp only [getPredictionsParams, addParam_normalize]
  · intro c s v l o
    simp [getMarketsParams, addParam_keys, List.append_assoc]
  · intro e mc r l
    simp [getOpportunitiesParams, addParam_keys, List.append_assoc]
  · intro d me l
    simp [getPredictionsParams, addParam_keys, List.append_assoc]
  · intro c v l o
    simp [getMarketsParams, addParam, jsTruthy]
  · intro e r l
    simp [getOpportunitiesParams, addParam, jsTruthy]
  · intro c s v o
    simp [getMarketsParams, addParam, jsTruthy]

/-- C9 witness: the theorem applied at concrete arguments — min_score
supplied as the number 0 builds the same params as omitting min_score. -/
theorem client_params_truthy_iff_witness :
    getMarketsParams none (some (Json.num 0)) none none none
      = getMarketsParams none none none none none :=
  client_params_truthy_iff.2.2.2.2.2.2.1 none none none none

/-- A concrete non-ok response whose body is the JSON object with an empty
detail string. -/
def emptyDetailResponse : HttpResponse :=
  { ok := false, status := 500, body := some (Json.obj [("detail", Json.str "")]) }

/-- C7 counterexample: the claim says a non-ok response with a detail field
present throws that detail as the message; for a present-but-empty detail
the code instead throws the fallback, because the JavaScript or-else picks
the detail only when truthy.  Hence the claim, which quantifies over all
present detail fields, is false. -/
theorem request_empty_detail_counterexample :
    emptyDetailResponse.ok = false ∧
    getDetail (emptyDetailResponse.body.getD (Json.obj [])) = some (Json.str "") ∧
    request emptyDetailResponse = .error (.httpError "Request failed: 500") ∧
    jsToString (Json.str "") ≠ "Request failed: 500" ∧
    ¬(∀ r : HttpResponse, r.ok = false →
        ∀ d, getDetail (r.body.getD (Json.obj [])) = some d →
          request r = .error (.httpError (jsToString d))) := by
  refine ⟨rfl, rfl, rfl, by simp [jsToString], ?_⟩
  intro hclaim
  have h := hclaim emptyDetailResponse rfl (Json.str "") rfl
  rw [show request emptyDetailResponse = .error (.httpError "Request failed: 500") from rfl] at h
  simp [jsToString] at h

/-- C7 amended: for every non-ok response the client throws an Error whose
message is the detail field of the body when it is present and truthy
(non-empty), otherwise the fallback string with the status; for every ok
response whose body parses as JSON the parsed body is returned without
throwing. -/
theorem request_error_message_spec (r : HttpResponse) :
    (r.ok = true → ∀ j, r.body = some j → request r = .ok j) ∧
    (r.ok = false →
      ∀ d, getDetail (r.body.getD (Json.obj [])) = some d → jsTruthy d = true →
        request r = .error (.httpError (jsToString d))) ∧
    (r.ok = false →
      (∀ d, getDetail (r.body.getD (Json.obj [])) = some d → jsTruthy d = false) →
        request r = .error (.httpError ("Request failed: " ++ toString r.status))) := by
  refine ⟨?_, ?_, ?_⟩
  · intro hok j hbody
    simp [request, hok, hbody]
  · intro hok d hd htr
    simp [request, hok, hd, htr]
  · intro hok hall
    cases hgd : getDetail (r.body.getD (Json.obj [])) with
    | none => simp [request, hok, hgd]
    | some d =>
      have hf := hall d hgd
      simp [request, hok, hgd, hf]

/-- C7 witness: the amended theorem applied at a concrete ok response with
a null JSON body, and at a concrete non-ok response with a truthy detail. -/
theorem request_error_message_witness :
    request { ok := true, status := 200, body := some Json.null } = .ok Json.null ∧
    request { ok := false, status := 404, body := some (Json.obj [("detail", Json.str "Market not found")]) }
      = .error (.httpError "Market not found") := by
  constructor
  · exact (request_error_message_spec { ok := true, status := 200, body := some Json.null }).1
      rfl Json.null rfl
  · have h := (request_error_message_spec
      { ok := false, status := 404, body := some (Json.obj [("detail", Json.str "Market not found")]) }).2.1
      rfl (Json.str "Market not found") rfl (by simp [jsTruthy])
    simpa [jsToString] using h

/-- C6: while the refreshing flag is set both header buttons are disabled
(so no second refresh can be issued while one is in flight), and a
handleRefresh run whose polled is_loading values eventually include false
polls exactly through the leading true values plus the terminating false,
then clears the refreshing flag and calls fetchData exactly once. -/
theorem refresh_single_flight :
    (∀ loading : Bool, buttonsDisabled loading true = true) ∧
    (∀ statuses : List Bool, false ∈ statuses →
      (handleRefresh statuses).fetchDataCalls = 1 ∧
      (handleRefresh statuses).refreshing = false ∧
      (handleRefresh statuses).statusPolls
        = (statuses.takeWhile (fun b => b)).length + 1) := by
  constructor
  · intro loading
    cases loading <;> rfl
  · intro statuses hmem
    induction statuses with
    | nil => cases hmem
    | cons b rest ih =>
      cases b with
      | false =>
        refine ⟨rfl, rfl, ?_⟩
        simp [handleRefresh, pollStatuses, List.takeWhile]
      | true =>
        have hrest : false ∈ rest := by simpa using hmem
        have h := ih hrest
        refine ⟨h.1, h.2.1, ?_⟩
        have hp : (handleRefresh (true :: rest)).statusPolls
            = (handleRefresh rest).statusPolls + 1 := rfl
        rw [hp, h.2.2]
        simp [List.takeWhile]

/-- C6 witness: the theorem applied to the poll trace true, true, false:
three polls, one fetch, refreshing cleared. -/
theorem refresh_single_flight_witness :
    false ∈ [true, true, false] ∧
    (handleRefresh [true, true, false]).fetchDataCalls = 1 ∧
    (handleRefresh [true, true, false]).refreshing = false ∧
    (handleRefresh [true, true, false]).statusPolls
      = ([true, true, false].takeWhile (fun b => b)).length + 1 :=
  ⟨by simp, refresh_single_flight.2 [true, true, false] (by simp)⟩

/-- The worked example of the spec: yes 0.60, no 0.55 (sum 1.15). -/
def arbExampleMarket : Market :=
  { market_id := "mkt-arb", question := "example", category := MarketCategory.other
    yes_price := 3/5, no_price := 11/20, volume_24h := 0, liquidity := 0
    spread_pct := 0, days_until_resolution := none, edge_score := 0 }

/-- The negative example of the spec: yes 0.60, no 0.40 (sum exactly 1.00). -/
def noArbExampleMarket : Market :=
  { market_id := "mkt-noarb", question := "example", category := MarketCategory.other
    yes_price := 3/5, no_price := 2/5, volume_24h := 0, liquidity := 0
    spread_pct := 0, days_until_resolution := none, edge_score := 0 }

theorem arbExample_dev_eq :
    |arbExampleMarket.yes_price + arbExampleMarket.no_price - 1| = 3/20 := by
  have h1 : arbExampleMarket.yes_price + arbExampleMarket.no_price - 1 = 3/20 := by
    norm_num [arbExampleMarket]
  rw [h1, abs_of_nonneg (by norm_num : (0:ℚ) ≤ 3/20)]

theorem noArbExample_dev_eq :
    |noArbExampleMarket.yes_price + noArbExampleMarket.no_price - 1| = 0 := by
  have h1 : noArbExampleMarket.yes_price + noArbExampleMarket.no_price - 1 = 0 := by
    norm_num [noArbExampleMarket]
  rw [h1, abs_zero]

/-- C2: the arbitrage detector emits exactly one opportunity per market
whose yes+no sum deviates from 1.00 beyond the tolerance (and at most one
per market overall); on the yes=0.60/no=0.55 example exactly one
arbitrage opportunity is emitted, on yes=0.60/no=0.40 none; confidence is
strictly increasing in the deviation; every emitted opportunity has low
risk, confidence scaling with the deviation of its market, and expected return
computed directly from the deviation. -/
theorem arbitrage_detector_spec :
    (∀ m : Market, ARBITRAGE_TOLERANCE < |m.yes_price + m.no_price - 1| →
      (detect_arbitrage [m]).length = 1) ∧
    (detect_arbitrage [arbExampleMarket]).length = 1 ∧
    (∀ o ∈ detect_arbitrage [arbExampleMarket],
      o.edge_type = EdgeType.arbitrage ∧ o.risk_level = RiskLevel.low) ∧
    detect_arbitrage [noArbExampleMarket] = [] ∧
    (∀ d1 d2 : ℚ, d1 < d2 → arbConfidence d1 < arbConfidence d2) ∧
    (∀ ms : List Market, ∀ o ∈ detect_arbitrage ms, ∃ m ∈ ms,
      o.market_id = m.market_id ∧
      ARBITRAGE_TOLERANCE < |m.yes_price + m.no_price - 1| ∧
      o.confidence = arbConfidence |m.yes_price + m.no_price - 1| ∧
      o.expected_return = |m.yes_price + m.no_price - 1| * 100 ∧
      o.risk_level = RiskLevel.low) ∧
    (∀ m : Market, (detect_arbitrage [m]).length ≤ 1) := by
  have hchar : ∀ ms : List Market, ∀ o ∈ detect_arbitrage ms, ∃ m ∈ ms,
      o.market_id = m.market_id ∧
      ARBITRAGE_TOLERANCE < |m.yes_price + m.no_price - 1| ∧
      o.confidence = arbConfidence |m.yes_price + m.no_price - 1| ∧
      o.expected_return = |m.yes_price + m.no_price - 1| * 100 ∧
      o.risk_level = RiskLevel.low := by
    intro ms o ho
    rw [detect_arbitrage, List.mem_filterMap] at ho
    obtain ⟨m, hm, hf⟩ := ho
    by_cases hc : ARBITRAGE_TOLERANCE < |m.yes_price + m.no_price - 1|
    · simp only [hc, if_true, Option.some.injEq] at hf
      exact ⟨m, hm, by rw [← hf], hc, by rw [← hf], by rw [← hf], by rw [← hf]⟩
    · simp only [hc, if_false] at hf
      exact Option.noConfusion hf
  refine ⟨?_, ?_, ?_, ?_, ?_, hchar, ?_⟩
  · intro m hc
    simp [detect_arbitrage, hc]
  · have hc : ARBITRAGE_TOLERANCE
        < |arbExampleMarket.yes_price + arbExampleMarket.no_price - 1| := by
      rw [arbExample_dev_eq]
      norm_num [ARBITRAGE_TOLERANCE]
    simp [detect_arbitrage, hc]
  · intro o ho
    obtain ⟨m, hm, _, _, _, _, hrisk⟩ := hchar [arbExampleMarket] o ho
    have het : o.edge_type = EdgeType.arbitrage := by
      rw [detect_arbitrage, List.mem_filterMap] at ho
      obtain ⟨m2, _, hf⟩ := ho
      by_cases hc : ARBITRAGE_TOLERANCE < |m2.yes_price + m2.no_price - 1|
      · simp only [hc, if_true, Option.some.injEq] at hf
        rw [← hf]
      · simp only [hc, if_false] at hf
        exact Option.noConfusion hf
    exact ⟨het, hrisk⟩
  · have hc : ¬(ARBITRAGE_TOLERANCE
        < |noArbExampleMarket.yes_price + noArbExampleMarket.no_price - 1|) := by
      rw [noArbExample_dev_eq]
      norm_num [ARBITRAGE_TOLERANCE]
    simp [detect_arbitrage, hc]
  · intro d1 d2 h
    simp only [arbConfidence]
    linarith
  · intro m
    rw [detect_arbitrage]
    by_cases hc : ARBITRAGE_TOLERANCE < |m.yes_price + m.no_price - 1|
    · simp [hc]
    · simp [hc]

/-- C2 witness: the monotonicity and per-market parts of the theorem at
concrete inputs. -/
theorem arbitrage_detector_spec_witness :
    ((1:ℚ)/10 < 3/20 ∧ arbConfidence (1/10) < arbConfidence (3/20)) ∧
    (ARBITRAGE_TOLERANCE
        < |arbExampleMarket.yes_price + arbExampleMarket.no_price - 1| ∧
      (detect_arbitrage [arbExampleMarket]).length = 1) :=
  ⟨⟨by norm_num, arbitrage_detector_spec.2.2.2.2.1 (1/10) (3/20) (by norm_num)⟩,
   ⟨by rw [arbExample_dev_eq]; norm_num [ARBITRAGE_TOLERANCE],
    arbitrage_detector_spec.1 arbExampleMarket
      (by rw [arbExample_dev_eq]; norm_num [ARBITRAGE_TOLERANCE])⟩⟩

/-- C3: the direction rule is consistent with the sign of the edge under
the deadband: buy_yes exactly when the edge exceeds the deadband, buy_no
exactly when it is below the negated deadband, hold exactly otherwise; and
every prediction an agent assembles carries edge = predicted_probability −
current_price and the direction computed by that rule at the configured
deadband. -/
theorem direction_consistency :
    (∀ edge deadband : ℚ, 0 ≤ deadband →
      (directionFor edge deadband = Direction.buy_yes ↔ deadband < edge) ∧
      (directionFor edge deadband = Direction.buy_no ↔ edge < -deadband) ∧
      (directionFor edge deadband = Direction.hold ↔
        -deadband ≤ edge ∧ edge ≤ deadband)) ∧
    (∀ (agent : String) (m : Market) (predicted confidence low high : ℚ)
        (strength reasoning : String),
      (mkPrediction agent m predicted confidence low high strength reasoning).edge
        = (mkPrediction agent m predicted confidence low high strength reasoning).predicted_probability
          - (mkPrediction agent m predicted confidence low high strength reasoning).current_price ∧
      (mkPrediction agent m predicted confidence low high strength reasoning).direction
        = directionFor
            (mkPrediction agent m predicted confidence low high strength reasoning).edge
            DEADBAND) := by
  constructor
  · intro edge deadband hdb
    unfold directionFor
    by_cases h1 : deadband < edge
    · rw [if_pos h1]
      refine ⟨⟨fun _ => h1, fun _ => rfl⟩, ?_, ?_⟩
      · exact ⟨fun h => Direction.noConfusion h, fun h => absurd h (by linarith)⟩
      · exact ⟨fun h => Direction.noConfusion h, fun h => absurd h.2 (by linarith)⟩
    · rw [if_neg h1]
      by_cases h2 : edge < -deadband
      · rw [if_pos h2]
        refine ⟨?_, ⟨fun _ => h2, fun _ => rfl⟩, ?_⟩
        · exact ⟨fun h => Direction.noConfusion h, fun h => absurd h h1⟩
        · exact ⟨fun h => Direction.noConfusion h, fun h => absurd h.1 (by linarith)⟩
      · rw [if_neg h2]
        refine ⟨?_, ?_, ?_⟩
        · exact ⟨fun h => Direction.noConfusion h, fun h => absurd h h1⟩
        · exact ⟨fun h => Direction.noConfusion h, fun h => absurd h h2⟩
        · exact ⟨fun _ => ⟨le_of_not_lt h2, le_of_not_lt h1⟩, fun _ => rfl⟩
  · intro agent m predicted confidence low high strength reasoning
    exact ⟨rfl, rfl⟩

/-- C3 witness: the theorem applied at edge 0.10, deadband 0.05: the
direction rule fires buy_yes there. -/
theorem direction_consistency_witness :
    (0:ℚ) ≤ 5/100 ∧
    (directionFor (1/10) (5/100) = Direction.buy_yes ↔ (5:ℚ)/100 < 1/10) :=
  ⟨by norm_num, (direction_consistency.1 (1/10) (5/100) (by norm_num)).1⟩

theorem find?_first_match {α : Type} (p : α → Bool) :
    ∀ (pre : List α) (a : α) (post : List α), (∀ b ∈ pre, p b = false) → p a = true →
      (pre ++ a :: post).find? p = some a := by
  intro pre
  induction pre with
  | nil =>
    intro a post _ ha
    simp [List.find?, ha]
  | cons b rest ih =>
    intro a post hpre ha
    have hb : p b = false := hpre b (by simp)
    simp only [List.cons_append, List.find?, hb]
    exact ih a post (fun x hx => hpre x (by simp [hx])) ha

theorem count_map_market_id (f : Market → Prediction)
    (hf : ∀ m : Market, (f m).market_id = m.market_id)
    (batch : List Market) (mid : String) :
    ((batch.map f).filter (fun p => p.market_id == mid)).length
      = (batch.filter (fun m => m.market_id == mid)).length := by
  induction batch with
  | nil => rfl
  | cons m rest ih =>
    simp only [List.map_cons, List.filter_cons, hf m]
    cases h : (m.market_id == mid) with
    | true => simp [ih]
    | false => simp [ih]

/-- C1: for every batch the orchestrator produces exactly one prediction
per market — the output has one entry per batch entry, the selected agent
for a market is the first registry agent whose can_analyze accepts it (the
fallback when none does), per-market-id prediction counts equal market
counts — and when the registry and fallback agents meet the §4.3 contract,
every produced prediction satisfies confidence_low ≤ predicted_probability
≤ confidence_high and confidence in [0,100]. -/
theorem orchestrator_totality_and_validity
    (registry : List ResearchAgent) (fallback : ResearchAgent) (batch : List Market)
    (hreg : ∀ a ∈ registry, AgentMeetsContract a)
    (hfb : AgentMeetsContract fallback) :
    (orchestrate registry fallback batch).length = batch.length ∧
    orchestrate registry fallback batch
      = batch.map (fun m => (selectAgent registry fallback m).analyze m) ∧
    (∀ m : Market, (∀ a ∈ registry, a.can_analyze m = false) →
      selectAgent registry fallback m = fallback) ∧
    (∀ (m : Market) (pre : List ResearchAgent) (a : ResearchAgent)
        (post : List ResearchAgent), registry = pre ++ a :: post →
      a.can_analyze m = true → (∀ b ∈ pre, b.can_analyze m = false) →
      selectAgent registry fallback m = a) ∧
    (∀ p ∈ orchestrate registry fallback batch,
      p.confidence_low ≤ p.predicted_probability ∧
      p.predicted_probability ≤ p.confidence_high ∧
      0 ≤ p.confidence ∧ p.confidence ≤ 100) ∧
    (∀ mid : String,
      ((orchestrate registry fallback batch).filter (fun p => p.market_id == mid)).length
        = (batch.filter (fun m => m.market_id == mid)).length) := by
  have hsel : ∀ m : Market, AgentMeetsContract (selectAgent registry fallback m) := by
    intro m
    unfold selectAgent
    cases hf : registry.find? (fun a => a.can_analyze m) with
    | none => exact hfb
    | some a => exact hreg a (List.mem_of_find?_eq_some hf)
  refine ⟨by simp [orchestrate], rfl, ?_, ?_, ?_, ?_⟩
  · intro m hnone
    unfold selectAgent
    have : registry.find? (fun a => a.can_analyze m) = none :=
      List.find?_eq_none.mpr (fun x hx => by simp [hnone x hx])
    rw [this]
    rfl
  · intro m pre a post hsplit ha hpre
    unfold selectAgent
    rw [hsplit, find?_first_match (fun a => a.can_analyze m) pre a post hpre ha]
    rfl
  · intro p hp
    rw [orchestrate, List.mem_map] at hp
    obtain ⟨m, _, hpm⟩ := hp
    have h := hsel m m
    rw [← hpm] at *
    exact ⟨h.2.1, h.2.2.1, h.2.2.2.1, h.2.2.2.2⟩
  · intro mid
    exact count_map_market_id _ (fun m => (hsel m m).1) batch mid

/-- A concrete default agent for exercising the orchestrator: accepts any
market and predicts 0.5 with interval [0.4, 0.6] and confidence 50. -/
def defaultAgentModel : ResearchAgent :=
  { name := "DefaultAgent"
    can_analyze := fun _ => true
    analyze := fun m =>
      mkPrediction "DefaultAgent" m (1/2) 50 (2/5) (3/5) "moderate" "baseline" }

/-- A concrete market for exercising the orchestrator. -/
def demoMarket : Market :=
  { market_id := "demo-1", question := "demo", category := MarketCategory.politics
    yes_price := 1/2, no_price := 1/2, volume_24h := 1000, liquidity := 1000
    spread_pct := 2, days_until_resolution := some 10, edge_score := 0 }

theorem defaultAgentModel_contract : AgentMeetsContract defaultAgentModel := by
  intro m
  refine ⟨rfl, ?_, ?_, ?_, ?_⟩ <;> norm_num [defaultAgentModel, mkPrediction]

/-- C1 witness: the theorem applied to the empty registry, the concrete
default agent and a one-market batch. -/
theorem orchestrator_totality_witness :
    (∀ a ∈ ([] : List ResearchAgent), AgentMeetsContract a) ∧
    AgentMeetsContract defaultAgentModel ∧
    (orchestrate [] defaultAgentModel [demoMarket]).length = [demoMarket].length :=
  ⟨by simp, defaultAgentModel_contract,
   (orchestrator_totality_and_validity [] defaultAgentModel [demoMarket]
      (by simp) defaultAgentModel_contract).1⟩

/-- C4: for every market with price fields in [0,1] and non-negative
volume, liquidity and spread, the edge scorer succeeds with a score in
[0,100], and is deterministic: scoring the same snapshot twice yields the
same result. -/
theorem edge_scorer_range_and_determinism (m : Market)
    (hy0 : 0 ≤ m.yes_price) (hy1 : m.yes_price ≤ 1)
    (hn0 : 0 ≤ m.no_price) (hn1 : m.no_price ≤ 1)
    (hv : 0 ≤ m.volume_24h) (hl : 0 ≤ m.liquidity) (hs : 0 ≤ m.spread_pct) :
    ∃ s : ℚ, scoreMarket m = .ok s ∧ 0 ≤ s ∧ s ≤ 100 ∧
      scoreMarket m = scoreMarket m := by
  have habs : |m.yes_price - 1/2| ≤ 1/2 := abs_le.mpr ⟨by linarith, by linarith⟩
  have habs0 : 0 ≤ |m.yes_price - 1/2| := abs_nonneg _
  have hvs0 : 0 ≤ volumeSignal m := le_min (by norm_num) (by positivity)
  have hvs1 : volumeSignal m ≤ 1 := min_le_left _ _
  have hss0 : 0 ≤ spreadSignal m := le_min (by norm_num) (by positivity)
  have hss1 : spreadSignal m ≤ 1 := min_le_left _ _
  have hts0 : 0 ≤ timeSignal m := by
    unfold timeSignal
    split
    · split
      · linarith
      · norm_num
    · norm_num
  have hts1 : timeSignal m ≤ 1 := by
    unfold timeSignal
    split
    · split
      · linarith
      · norm_num
    · norm_num
  have hms0 : 0 ≤ midpointSignal m := by
    unfold midpointSignal
    positivity
  have hms1 : midpointSignal m ≤ 1 := by
    unfold midpointSignal
    linarith
  have hraw0 : 0 ≤ rawScore m := by
    unfold rawScore
    linarith
  have hraw100 : rawScore m ≤ 100 := by
    unfold rawScore
    linarith
  have hok : scoreMarket m = .ok (min 100 (rawScore m)) := by
    unfold scoreMarket
    rw [if_neg (not_not_intro ⟨hy0, hy1, hn0, hn1⟩),
      if_neg (not_lt.mpr hv), if_neg (not_lt.mpr hl), if_neg (not_lt.mpr hs)]
  exact ⟨min 100 (rawScore m), hok, le_min (by norm_num) hraw0, min_le_left _ _, rfl⟩

/-- A concrete valid market for exercising the scorer. -/
def scorerWitnessMarket : Market :=
  { market_id := "score-1", question := "demo", category := MarketCategory.crypto
    yes_price := 7/10, no_price := 3/10, volume_24h := 5000, liquidity := 2000
    spread_pct := 4, days_until_resolution := some 12, edge_score := 0 }

/-- C4 witness: the theorem applied to a concrete valid market. -/
theorem edge_scorer_witness :
    (0 ≤ scorerWitnessMarket.yes_price ∧ scorerWitnessMarket.yes_price ≤ 1 ∧
     0 ≤ scorerWitnessMarket.volume_24h) ∧
    ∃ s : ℚ, scoreMarket scorerWitnessMarket = .ok s ∧ 0 ≤ s ∧ s ≤ 100 ∧
      scoreMarket scorerWitnessMarket = scoreMarket scorerWitnessMarket :=
  ⟨by norm_num [scorerWitnessMarket],
   edge_scorer_range_and_determinism scorerWitnessMarket
     (by norm_num [scorerWitnessMarket]) (by norm_num [scorerWitnessMarket])
     (by norm_num [scorerWitnessMarket]) (by norm_num [scorerWitnessMarket])
     (by norm_num [scorerWitnessMarket]) (by norm_num [scorerWitnessMarket])
     (by norm_num [scorerWitnessMarket])⟩

/-- C5: market-listing filters are AND-combined, omitted filters pass all
records, min_* filters are inclusive lower bounds, and limit truncates
after filtering preserving the underlying order: with offset 0 the result
is exactly the first limit filter-matching records, every returned market
is a batch member passing all supplied filters, the result is in batch
order (a sublist), and limit 10 over a batch with at least 10 matches
returns exactly 10 records, the first 10 of the filtered order. -/
theorem market_listing_filter_semantics :
    (∀ ms c s v lim, listMarkets ms c s v lim 0
      = (ms.filter (passesMarketFilters c s v)).take lim) ∧
    (∀ m : Market, passesMarketFilters none none none m = true) ∧
    (∀ ms c s v lim off, ∀ m ∈ listMarkets ms c s v lim off,
      m ∈ ms ∧ passesMarketFilters c s v m = true) ∧
    (∀ c s v m, passesMarketFilters c s v m = true ↔
      ((∀ c0, c = some c0 → m.category = c0) ∧
       (∀ s0, s = some s0 → s0 ≤ m.edge_score) ∧
       (∀ v0, v = some v0 → v0 ≤ m.volume_24h))) ∧
    (∀ (s0 : ℚ) (m : Market), m.edge_score = s0 →
      passesMarketFilters none (some s0) none m = true) ∧
    (∀ ms c s v lim off, (listMarkets ms c s v lim off).Sublist ms) ∧
    (∀ ms c s v, 10 ≤ (ms.filter (passesMarketFilters c s v)).length →
      (listMarkets ms c s v 10 0).length = 10 ∧
      listMarkets ms c s v 10 0 = (ms.filter (passesMarketFilters c s v)).take 10) := by
  refine ⟨?_, ?_, ?_, ?_, ?_, ?_, ?_⟩
  · intro ms c s v lim
    simp [listMarkets]
  · intro m
    rfl
  · intro ms c s v lim off m hm
    unfold listMarkets at hm
    have hm2 := List.mem_of_mem_drop (List.mem_of_mem_take hm)
    rw [List.mem_filter] at hm2
    exact ⟨hm2.1, hm2.2⟩
  · intro c s v m
    cases c <;> cases s <;> cases v <;>
      simp [passesMarketFilters, and_assoc]
  · intro s0 m hm
    simp [passesMarketFilters, hm]
  · intro ms c s v lim off
    exact ((List.take_sublist _ _).trans (List.drop_sublist _ _)).trans
      (List.filter_sublist _)
  · intro ms c s v hlen
    constructor
    · simp [listMarkets, List.length_take]
      omega
    · simp [listMarkets]

/-- C5 witness: the pagination part of the theorem applied to a concrete
50-market batch with no filters: all 50 pass, and limit 10 returns exactly
10 records, the first 10 in order. -/
theorem market_listing_witness :
    10 ≤ ((List.replicate 50 demoMarket).filter
        (passesMarketFilters none none none)).length ∧
    (listMarkets (List.replicate 50 demoMarket) none none none 10 0).length = 10 := by
  have hall : (List.replicate 50 demoMarket).filter (passesMarketFilters none none none)
      = List.replicate 50 demoMarket :=
    List.filter_eq_self.mpr (fun a _ => rfl)
  have hlen : 10 ≤ ((List.replicate 50 demoMarket).filter
      (passesMarketFilters none none none)).length := by
    rw [hall, List.length_replicate]
    norm_num
  exact ⟨hlen,
    (market_listing_filter_semantics.2.2.2.2.2.2 (List.replicate 50 demoMarket)
      none none none hlen).1⟩

end Polymarket
